import Mathlib

/-!
Shallow embedding of the joystick signal-conditioning pipeline of the
arduino-joystick-racer repository.

The JavaScript sources embedded here:
* `src/src/serial-controller.js` — the airplane game's `SerialController`
  (line framing, calibration offsets, deadzone, edge rescaling,
  exponential response curve, moving average);
* the Pacman game's `SerialController` (`processJoystickData`) — plain
  normalization with an inverted Y axis;
* the Pacman game's `BluetoothController.connect` — characteristic
  discovery with notify/polling/simulated fallbacks;
* the Arduino sketches' sampled-average `calibrateJoystick` and the
  EEPROM calibration validity band of `pacman_joystick_usb.ino`.

JS strings are modelled as lists of characters, JS numbers holding
analog readings as `Int`, and the fractional signal values as `ℚ`.
`Math.pow (·, exponentialFactor)` on the nonnegative reals is not
exactly representable over `ℚ`, so the per-value power function is a
parameter `pw : ℚ → ℚ` of every definition that applies the
exponential response curve; the curve itself (zero test, sign
handling, absolute value) is embedded from the source.
-/

namespace ArduinoJoystick

/-- JS strings, as lists of characters. -/
abbrev Str := List Char

/-- Embedding of `String.prototype.split(sep)` for a one-character separator:
splitting on every occurrence, keeping empty fragments, and returning
one more fragment than there are separators. -/
def splitOnChar (sep : Char) : Str → List Str
  | [] => [[]]
  | c :: rest =>
    if c = sep then [] :: splitOnChar sep rest
    else
      match splitOnChar sep rest with
      | [] => [[c]]
      | l :: ls => (c :: l) :: ls

/-- The whitespace characters relevant to the CSV stream
(`String.prototype.trim` / `parseInt` leading-space skipping). -/
def isJsSpace (c : Char) : Bool :=
  c = ' ' || c = '\t' || c = '\n' || c = '\r'

/-- Embedding of `String.prototype.trim`. -/
def trimStr (s : Str) : Str :=
  ((s.dropWhile isJsSpace).reverse.dropWhile isJsSpace).reverse

/-- Value of a list of decimal digits. -/
def digitsVal (ds : Str) : Nat :=
  ds.foldl (fun acc c => acc * 10 + (c.toNat - '0'.toNat)) 0

/-- The digit-prefix part of JS `parseInt`: take the longest leading
run of decimal digits; no digit at all yields `NaN` (`none`). -/
def parseDigits (l : Str) (sign : Int) : Option Int :=
  let ds := l.takeWhile Char.isDigit
  if ds.isEmpty then none else some (sign * (digitsVal ds : Int))

/-- JS `parseInt` as used on the CSV fields: skip leading whitespace,
read an optional sign and then the longest decimal-digit prefix;
`none` models the `NaN` result. -/
def parseIntJS (s : Str) : Option Int :=
  match s.dropWhile isJsSpace with
  | '-' :: rest => parseDigits rest (-1)
  | '+' :: rest => parseDigits rest 1
  | t => parseDigits t 1

/-- Embedding of `Math.sign`. -/
def jsSign (q : ℚ) : ℚ :=
  if 0 < q then 1 else if q < 0 then -1 else 0

/-- Clamping of a corrected reading to the 10-bit ADC range:
`Math.max(0, Math.min(1023, v))`. -/
def clamp1023 (v : Int) : Int := max 0 (min 1023 v)

/-- Embedding of `str.includes(needle)`. -/
def strIncludes (hay needle : Str) : Bool :=
  match hay with
  | [] => needle.isEmpty
  | _ :: rest => needle.isPrefixOf hay || strIncludes rest needle


/-! ## The airplane game's SerialController (src/src/serial-controller.js) -/

/-- The event object passed to `onJoystickData` by the airplane
controller's `processJoystickData`. -/
structure JoyEvent where
  roll : ℚ
  pitch : ℚ
  boost : Bool
  rawX : Int
  rawY : Int
deriving DecidableEq, Repr

/-- The mutable fields of the airplane `SerialController` touched by the
signal pipeline, as set up in the constructor. -/
structure JoyState where
  buffer : Str
  joystickX : Int
  joystickY : Int
  buttonPressed : Bool
  roll : ℚ
  pitch : ℚ
  manualOffsetX : Int
  manualOffsetY : Int
  connected : Bool
  deadzone : ℚ
  rollHistory : List ℚ
  pitchHistory : List ℚ
  historyIndex : Nat
  debugElementPresent : Bool
deriving DecidableEq, Repr

/-- The constructor's initial field values (`deadzone = 0.15`, history
windows of three zeroes). -/
def initState : JoyState where
  buffer := []
  joystickX := 512
  joystickY := 512
  buttonPressed := false
  roll := 0
  pitch := 0
  manualOffsetX := 0
  manualOffsetY := 0
  connected := false
  deadzone := 15/100
  rollHistory := [0, 0, 0]
  pitchHistory := [0, 0, 0]
  historyIndex := 0
  debugElementPresent := false

/-- The parsing prefix of `processJoystickData`: split the line on
commas; with at least two fields, `parseInt` the first two (both must
be numbers) and read the optional third as the button state
(`btn > 0`; a `NaN` third field compares false). -/
def parseLine (line : Str) : Option (Int × Int × Bool) :=
  let parts := splitOnChar ',' line
  if parts.length ≥ 2 then
    match parseIntJS (parts.getD 0 []), parseIntJS (parts.getD 1 []) with
    | some x, some y =>
      let btn : Bool :=
        if parts.length > 2 then
          match parseIntJS (parts.getD 2 []) with
          | some b => decide (b > 0)
          | none => false
        else false
      some (x, y, btn)
    | _, _ => none
  else none

/-- Normalization of a clamped corrected reading to the nominal
[-1, 1] band: `(calibrated - 512) / 512`. -/
def normalize (c : Int) : ℚ := ((c : ℚ) - 512) / 512

/-- Deadzone rejection: a normalized value strictly inside the
deadzone band is forced to exactly 0. -/
def applyDeadzone (dz n : ℚ) : ℚ := if |n| < dz then 0 else n

/-- Edge rescaling of a non-zero post-deadzone value:
`sign * (|n| - deadzone) / (1 - deadzone)`. -/
def rescale (dz n : ℚ) : ℚ :=
  if n ≠ 0 then jsSign n * ((|n| - dz) / (1 - dz)) else n

/-- The complete per-sample, per-axis conditioning applied before the
value enters the smoothing window: manual offset, clamp to [0, 1023],
normalize, deadzone, edge rescale. -/
def shapedSample (offset : Int) (dz : ℚ) (raw : Int) : ℚ :=
  rescale dz (applyDeadzone dz (normalize (clamp1023 (raw + offset))))

/-- Arithmetic mean of the smoothing window. -/
def movingAvg (l : List ℚ) : ℚ := l.sum / (l.length : ℚ)

/-- The exponential response curve as coded: values equal to zero are
left alone, otherwise `Math.sign(v) * pw |v|` where `pw` stands for
`Math.pow (·, exponentialFactor)`. -/
def applyExpo (pw : ℚ → ℚ) (v : ℚ) : ℚ :=
  if v ≠ 0 then jsSign v * pw |v| else v

/-- The airplane controller's `processJoystickData`: parse the CSV
line; on success store the raws, shape each axis, write the shaped
values into the history windows at `historyIndex`, advance the index
modulo the window length, average each window, apply the exponential
curve to each average, and emit the `{roll, pitch, boost, rawX, rawY}`
event; on parse failure leave the state unchanged and emit nothing. -/
def processJoystickData (pw : ℚ → ℚ) (st : JoyState) (line : Str) :
    JoyState × Option JoyEvent :=
  match parseLine line with
  | none => (st, none)
  | some (x, y, btn) =>
    let rawRoll := shapedSample st.manualOffsetX st.deadzone x
    let rawPitch := shapedSample st.manualOffsetY st.deadzone y
    let rollHistory := st.rollHistory.set st.historyIndex rawRoll
    let pitchHistory := st.pitchHistory.set st.historyIndex rawPitch
    let historyIndex := (st.historyIndex + 1) % rollHistory.length
    let avgRoll := movingAvg rollHistory
    let avgPitch := movingAvg pitchHistory
    let roll := applyExpo pw avgRoll
    let pitch := applyExpo pw avgPitch
    let st' := { st with
      joystickX := x, joystickY := y, buttonPressed := btn,
      rollHistory := rollHistory, pitchHistory := pitchHistory,
      historyIndex := historyIndex, roll := roll, pitch := pitch }
    (st', some { roll := roll, pitch := pitch, boost := btn,
                 rawX := x, rawY := y })

/-- The airplane controller's `calibrateJoystick`: a no-op while
disconnected; otherwise store `512 - current` as the manual offsets
and reset both history windows to `[0, 0, 0]` (the history index is
left as it was). -/
def calibrateJoystick (st : JoyState) : JoyState :=
  if st.connected then
    { st with
      manualOffsetX := 512 - st.joystickX,
      manualOffsetY := 512 - st.joystickY,
      rollHistory := [0, 0, 0],
      pitchHistory := [0, 0, 0] }
  else st

/-- The line-framing core of `processSerialData`: append the freshly
decoded text to the accumulation buffer, split on newline, hand on all
fragments but the last as complete lines, and keep the last (possibly
empty) fragment as the new buffer. -/
def framerSplit (buffer data : Str) : List Str × Str :=
  let combined := buffer ++ data
  let lines := splitOnChar '\n' combined
  if lines.length > 1 then (lines.dropLast, lines.getLastD [])
  else ([], combined)

/-- Is this one of the Arduino startup/calibration status lines that
`processSerialData` logs and skips? -/
def isArduinoStatusLine (l : Str) : Bool :=
  strIncludes l "IMPORTANT:".toList ||
  strIncludes l "Calibrating".toList ||
  strIncludes l "Calibration".toList ||
  strIncludes l "calibrated".toList ||
  strIncludes l "Ready".toList

/-- Is this one of the Arduino debug lines that `processSerialData`
logs and skips? -/
def isArduinoDebugLine (l : Str) : Bool :=
  strIncludes l "Debug Info:".toList ||
  "Raw".toList.isPrefixOf l ||
  strIncludes l "Center".toList ||
  strIncludes l "Offset".toList

/-- The state change performed for a `Calibration complete` /
`calibrated` status line: when a debug element is attached, the manual
offsets are cleared and the history windows reset. -/
def statusLineReset (st : JoyState) (l : Str) : JoyState :=
  if (strIncludes l "Calibration complete".toList ||
      strIncludes l "calibrated".toList) && st.debugElementPresent then
    { st with manualOffsetX := 0, manualOffsetY := 0,
              rollHistory := [0, 0, 0], pitchHistory := [0, 0, 0] }
  else st

/-- Per-complete-line dispatch of `processSerialData`: trim, drop empty
lines, absorb Arduino status and debug lines, and pass lines containing
a comma to `processJoystickData`. -/
def processLine (pw : ℚ → ℚ) (st : JoyState) (line : Str) :
    JoyState × Option JoyEvent :=
  let l := trimStr line
  if l.isEmpty then (st, none)
  else if isArduinoStatusLine l then (statusLineReset st l, none)
  else if isArduinoDebugLine l then (st, none)
  else if l.contains ',' then processJoystickData pw st l
  else (st, none)

/-- Embedding of `processSerialData`: run the line framer over the buffered stream
and dispatch every complete line in order, collecting the emitted
events. -/
def processSerialData (pw : ℚ → ℚ) (st : JoyState) (data : Str) :
    JoyState × List JoyEvent :=
  let fr := framerSplit st.buffer data
  fr.1.foldl
    (fun acc line =>
      let step := processLine pw acc.1 line
      (step.1, acc.2 ++ step.2.toList))
    ({ st with buffer := fr.2 }, [])

/-- Process a list of CSV data lines through `processJoystickData` one
after the other, collecting the emitted events in order. -/
def processLines (pw : ℚ → ℚ) (st : JoyState) : List Str → JoyState × List JoyEvent
  | [] => (st, [])
  | l :: ls =>
    let step := processJoystickData pw st l
    let rest := processLines pw step.1 ls
    (rest.1, step.2.toList ++ rest.2)

/-! ## The Pacman game's SerialController -/

/-- The event delivered by the Pacman serial controller's
`processJoystickData`. -/
structure PacEvent where
  x : ℚ
  y : ℚ
  button : Bool
  rawX : Int
  rawY : Int
  dir : Str
deriving DecidableEq, Repr

/-- The Pacman serial controller's `getDirectionFromValues`. -/
def getDirectionFromValues (x y : ℚ) : Str :=
  if |x| ≤ 1/10 && |y| ≤ 1/10 then "CENTER".toList
  else if |x| > |y| then (if x > 0 then "RIGHT".toList else "LEFT".toList)
  else (if y > 0 then "DOWN".toList else "UP".toList)

/-- The Pacman serial controller's `processJoystickData`: parse the
CSV line exactly as the airplane controller does, then deliver the
plain normalizations `x = (X - 512)/512` and `y = -(Y - 512)/512`
(inverted Y axis) with the button state — no offsets, deadzone,
rescaling, exponential curve or smoothing. -/
def pacmanProcessJoystickData (line : Str) : Option PacEvent :=
  match parseLine line with
  | none => none
  | some (x, y, btn) =>
    let normalizedX := ((x : ℚ) - 512) / 512
    let normalizedY := -(((y : ℚ) - 512)) / 512
    some { x := normalizedX, y := normalizedY, button := btn,
           rawX := x, rawY := y,
           dir := getDirectionFromValues normalizedX normalizedY }

/-! ## Arduino-side sampled-average calibration -/

/-- Sample count `calibrationSamples` of the Pacman Arduino sketch. -/
def calibrationSamples : Nat := 10

/-- The result of the sketch's `calibrateJoystick`: the computed
centers and the `calibrated` flag. -/
structure ArduinoCalib where
  xCenter : Int
  yCenter : Int
  calibrated : Bool
deriving DecidableEq, Repr

/-- The Arduino sketch's `calibrateJoystick`: sum `calibrationSamples`
raw readings per axis, divide by the sample count (C integer division
on nonnegative sums), and set `calibrated = true` — unconditionally. -/
def arduinoCalibrateJoystick (xs ys : List Int) : ArduinoCalib where
  xCenter := xs.sum / (calibrationSamples : Int)
  yCenter := ys.sum / (calibrationSamples : Int)
  calibrated := true

/-- The validity band applied by `loadCalibrationFromEEPROM` in
`pacman_joystick_usb.ino` to centers loaded from EEPROM: values
outside [200, 800] on either axis make the load fail (which triggers a
fresh calibration). -/
def eepromCenterValid (cx cy : Int) : Bool :=
  !(cx < 200 || cx > 800 || cy < 200 || cy > 800)

/-! ## The Pacman game's BluetoothController.connect -/

/-- The `properties` flags of a GATT characteristic that the connect
logic inspects. -/
structure CharProps where
  notify : Bool
  canRead : Bool
deriving DecidableEq, Repr

/-- How a Bluetooth connection attempt ends once the GATT services are
listed: live notifications, read polling, the simulated/keyboard
substitute mode, or a thrown error. -/
inductive BtOutcome
  | notifications
  | polling
  | simulated
  | failed
deriving DecidableEq, Repr

/-- Is the device one of the HC-06 family names
(`device.name.includes('HC-') || device.name.includes('JY')`)? -/
def isHcName (name : Str) : Bool :=
  strIncludes name "HC-".toList || strIncludes name "JY".toList

/-- The terminal branch of `connect` when no data channel was
established: HC-06-family names switch to the simulated/keyboard mode,
every other device gets an error thrown. -/
def btFallback (name : Str) : BtOutcome :=
  if isHcName name then .simulated else .failed

/-- The per-service loop of `connect`: the first service with a
notify-capable characteristic wins (notifications), otherwise a
read-capable characteristic in it wins (polling); a service with
neither only records an error and the loop continues. -/
def btServiceLoop (name : Str) : List (List CharProps) → BtOutcome
  | [] => btFallback name
  | svc :: rest =>
    if svc.any (·.notify) then .notifications
    else if svc.any (·.canRead) then .polling
    else btServiceLoop name rest

/-- Embedding of `BluetoothController.connect` from the point where the GATT
services have been listed: an empty service list goes straight to the
name-dependent fallback; an HC-06-family device whose first service
exposes no characteristics takes the fast path to simulated mode;
otherwise each service is tried in order for a notify or read
characteristic. -/
def btConnectOutcome (name : Str) (services : List (List CharProps)) :
    BtOutcome :=
  if services.isEmpty then btFallback name
  else if isHcName name && (services.getD 0 []).isEmpty then .simulated
  else btServiceLoop name services

/-- A gamma-2 instance of the exponential response curve's power
function, used to instantiate the curve parameter on concrete runs. -/
def sq (q : ℚ) : ℚ := q * q

/-! ## Lemmas about the line framer -/

/-- Prepend a fragment onto the first piece of a split. -/
def consHead (x : Str) : List Str → List Str
  | [] => []
  | l :: ls => (x ++ l) :: ls

theorem splitOnChar_ne_nil (sep : Char) (s : Str) : splitOnChar sep s ≠ [] := by
  induction s with
  | nil => simp [splitOnChar]
  | cons c rest ih =>
    simp only [splitOnChar]
    split
    · simp
    · split
      · simp
      · simp

theorem splitOnChar_sep_not_mem (sep : Char) (s : Str) :
    ∀ l ∈ splitOnChar sep s, sep ∉ l := by
  induction s with
  | nil =>
    intro l hl
    simp only [splitOnChar, List.mem_singleton] at hl
    simp [hl]
  | cons c rest ih =>
    intro l hl
    simp only [splitOnChar] at hl
    by_cases hc : c = sep
    · rw [if_pos hc] at hl
      rcases List.mem_cons.mp hl with h | h
      · simp [h]
      · exact ih l h
    · rw [if_neg hc] at hl
      cases hrec : splitOnChar sep rest with
      | nil => exact absurd hrec (splitOnChar_ne_nil sep rest)
      | cons l0 ls =>
        rw [hrec] at hl
        rcases List.mem_cons.mp hl with h | h
        · subst h
          intro hmem
          rcases List.mem_cons.mp hmem with h | h
          · exact hc h.symm
          · exact ih l0 (hrec ▸ List.mem_cons_self l0 ls) h
        · exact ih l (hrec ▸ List.mem_cons_of_mem l0 h)

theorem splitOnChar_eq_single (sep : Char) (s : Str) (h : sep ∉ s) :
    splitOnChar sep s = [s] := by
  induction s with
  | nil => rfl
  | cons c rest ih =>
    have hc : ¬(c = sep) := fun hcc => h (hcc ▸ List.mem_cons_self c rest)
    have hrest : sep ∉ rest := fun hm => h (List.mem_cons_of_mem c hm)
    simp only [splitOnChar, if_neg hc, ih hrest]

theorem splitOnChar_singleton (sep : Char) (s : Str) (l : Str)
    (h : splitOnChar sep s = [l]) : l = s := by
  induction s generalizing l with
  | nil =>
    simp only [splitOnChar] at h
    injection h with h1 h2
    exact h1.symm
  | cons c rest ih =>
    simp only [splitOnChar] at h
    by_cases hc : c = sep
    · rw [if_pos hc] at h
      injection h with h1 h2
      exact absurd h2 (splitOnChar_ne_nil sep rest)
    · rw [if_neg hc] at h
      cases hrec : splitOnChar sep rest with
      | nil => exact absurd hrec (splitOnChar_ne_nil sep rest)
      | cons l0 ls =>
        rw [hrec] at h
        injection h with h1 h2
        subst h2
        rw [← h1, ih l0 hrec]

theorem dropLast_cons_ne (a : Str) (X : List Str) (h : X ≠ []) :
    (a :: X).dropLast = a :: X.dropLast := by
  cases X with
  | nil => exact absurd rfl h
  | cons x xs => rfl

theorem getLastD_cons_ne (a : Str) (X : List Str) (h : X ≠ []) :
    (a :: X).getLastD [] = X.getLastD [] := by
  cases X with
  | nil => exact absurd rfl h
  | cons x xs => rfl

theorem consHead_ne_nil (x : Str) (L : List Str) (h : L ≠ []) :
    consHead x L ≠ [] := by
  cases L with
  | nil => exact absurd rfl h
  | cons l ls => simp [consHead]

theorem splitOnChar_append (sep : Char) (a b : Str) :
    splitOnChar sep (a ++ b) =
      (splitOnChar sep a).dropLast ++
        consHead ((splitOnChar sep a).getLastD []) (splitOnChar sep b) := by
  induction a with
  | nil =>
    cases hb : splitOnChar sep b with
    | nil => exact absurd hb (splitOnChar_ne_nil sep b)
    | cons l ls =>
      show splitOnChar sep b = _
      rw [hb]
      rfl
  | cons c rest ih =>
    have hne := splitOnChar_ne_nil sep rest
    by_cases hc : c = sep
    · have h1 : splitOnChar sep (c :: rest) = [] :: splitOnChar sep rest := by
        simp [splitOnChar, if_pos hc]
      have h2 : splitOnChar sep (c :: (rest ++ b)) =
          [] :: splitOnChar sep (rest ++ b) := by
        simp [splitOnChar, if_pos hc]
      rw [List.cons_append, h2, ih, h1, dropLast_cons_ne _ _ hne,
        getLastD_cons_ne _ _ hne, List.cons_append]
    · cases hrec : splitOnChar sep rest with
      | nil => exact absurd hrec hne
      | cons l0 ls =>
        cases ls with
        | nil =>
          cases hb : splitOnChar sep b with
          | nil => exact absurd hb (splitOnChar_ne_nil sep b)
          | cons m ms =>
            have hsplit : splitOnChar sep (rest ++ b) = (l0 ++ m) :: ms := by
              rw [ih, hrec, hb]
              rfl
            have h1 : splitOnChar sep (c :: rest) = [c :: l0] := by
              simp [splitOnChar, if_neg hc, hrec]
            have h2 : splitOnChar sep (c :: (rest ++ b)) =
                (c :: (l0 ++ m)) :: ms := by
              simp [splitOnChar, if_neg hc, hsplit]
            rw [List.cons_append, h2, h1]
            rfl
        | cons l1 ls' =>
          have hne' : (l1 :: ls' : List Str) ≠ [] := by simp
          have hsplit : splitOnChar sep (rest ++ b) =
              l0 :: ((l1 :: ls').dropLast ++
                consHead ((l1 :: ls').getLastD []) (splitOnChar sep b)) := by
            rw [ih, hrec, dropLast_cons_ne _ _ hne', getLastD_cons_ne _ _ hne',
              List.cons_append]
          have h1 : splitOnChar sep (c :: rest) = (c :: l0) :: l1 :: ls' := by
            simp [splitOnChar, if_neg hc, hrec]
          have h2 : splitOnChar sep (c :: (rest ++ b)) =
              (c :: l0) :: ((l1 :: ls').dropLast ++
                consHead ((l1 :: ls').getLastD []) (splitOnChar sep b)) := by
            simp [splitOnChar, if_neg hc, hsplit]
          rw [List.cons_append, h2, h1, dropLast_cons_ne _ _ hne',
            getLastD_cons_ne _ _ hne', List.cons_append]

theorem getLastD_mem (L : List Str) (h : L ≠ []) : L.getLastD [] ∈ L := by
  induction L with
  | nil => exact absurd rfl h
  | cons l ls ih =>
    cases hls : ls with
    | nil => simp [List.getLastD]
    | cons l1 ls' =>
      subst hls
      rw [getLastD_cons_ne _ _ (by simp)]
      exact List.mem_cons_of_mem _ (ih (by simp))

theorem dropLast_append_ne_nil (X L : List Str) (h : L ≠ []) :
    (X ++ L).dropLast = X ++ L.dropLast := by
  induction X with
  | nil => simp
  | cons x xs ih =>
    have hxl : xs ++ L ≠ [] := by
      intro hh
      exact h (List.append_eq_nil.mp hh).2
    rw [List.cons_append, dropLast_cons_ne _ _ hxl, ih, List.cons_append]

theorem getLastD_append_ne_nil (X L : List Str) (h : L ≠ []) :
    (X ++ L).getLastD [] = L.getLastD [] := by
  induction X with
  | nil => rfl
  | cons x xs ih =>
    have hxl : xs ++ L ≠ [] := by
      intro hh
      exact h (List.append_eq_nil.mp hh).2
    rw [List.cons_append, getLastD_cons_ne _ _ hxl, ih]

/-- The two branches of `framerSplit` implement one function of the
combined text: all fragments but the last, and the last fragment. -/
theorem framerSplit_eq (b d : Str) :
    framerSplit b d =
      ((splitOnChar '\n' (b ++ d)).dropLast,
       (splitOnChar '\n' (b ++ d)).getLastD []) := by
  simp only [framerSplit]
  split
  · rfl
  · rename_i hlen
    cases hA : splitOnChar '\n' (b ++ d) with
    | nil => exact absurd hA (splitOnChar_ne_nil '\n' (b ++ d))
    | cons l ls =>
      cases ls with
      | nil =>
        have hl := splitOnChar_singleton '\n' (b ++ d) l hA
        subst hl
        rfl
      | cons l1 ls' =>
        rw [hA] at hlen
        exact absurd (by simp) hlen

/-- Feeding two chunks one after the other produces the same complete
lines (concatenated, in order) and the same final buffer as feeding
their concatenation at once. -/
theorem framerSplit_comp (b d1 d2 : Str) :
    (framerSplit b d1).1 ++ (framerSplit (framerSplit b d1).2 d2).1 =
        (framerSplit b (d1 ++ d2)).1 ∧
      (framerSplit (framerSplit b d1).2 d2).2 =
        (framerSplit b (d1 ++ d2)).2 := by
  rw [framerSplit_eq b d1, framerSplit_eq b (d1 ++ d2)]
  have hAne := splitOnChar_ne_nil '\n' (b ++ d1)
  have hmem := getLastD_mem (splitOnChar '\n' (b ++ d1)) hAne
  have hnosep : '\n' ∉ (splitOnChar '\n' (b ++ d1)).getLastD [] :=
    splitOnChar_sep_not_mem '\n' (b ++ d1) _ hmem
  have hsingle := splitOnChar_eq_single '\n' _ hnosep
  have hC : splitOnChar '\n' ((splitOnChar '\n' (b ++ d1)).getLastD [] ++ d2) =
      consHead ((splitOnChar '\n' (b ++ d1)).getLastD [])
        (splitOnChar '\n' d2) := by
    rw [splitOnChar_append, hsingle]
    rfl
  have hD : splitOnChar '\n' (b ++ (d1 ++ d2)) =
      (splitOnChar '\n' (b ++ d1)).dropLast ++
        consHead ((splitOnChar '\n' (b ++ d1)).getLastD [])
          (splitOnChar '\n' d2) := by
    rw [← List.append_assoc, splitOnChar_append]
  have hCne : consHead ((splitOnChar '\n' (b ++ d1)).getLastD [])
      (splitOnChar '\n' d2) ≠ [] :=
    consHead_ne_nil _ _ (splitOnChar_ne_nil '\n' d2)
  constructor
  · rw [framerSplit_eq, hC, hD, dropLast_append_ne_nil _ _ hCne]
  · rw [framerSplit_eq, hC, hD, getLastD_append_ne_nil _ _ hCne]

/-! ## Unfolding lemmas for processJoystickData -/

theorem processJoystickData_none (pw : ℚ → ℚ) (st : JoyState) (line : Str)
    (hp : parseLine line = none) :
    processJoystickData pw st line = (st, none) := by
  unfold processJoystickData
  rw [hp]

theorem processJoystickData_some (pw : ℚ → ℚ) (st : JoyState) (line : Str)
    (x y : ℤ) (b : Bool) (hp : parseLine line = some (x, y, b)) :
    processJoystickData pw st line =
      ({ st with
          joystickX := x, joystickY := y, buttonPressed := b,
          rollHistory := st.rollHistory.set st.historyIndex
            (shapedSample st.manualOffsetX st.deadzone x),
          pitchHistory := st.pitchHistory.set st.historyIndex
            (shapedSample st.manualOffsetY st.deadzone y),
          historyIndex := (st.historyIndex + 1) %
            (st.rollHistory.set st.historyIndex
              (shapedSample st.manualOffsetX st.deadzone x)).length,
          roll := applyExpo pw (movingAvg (st.rollHistory.set st.historyIndex
            (shapedSample st.manualOffsetX st.deadzone x))),
          pitch := applyExpo pw (movingAvg (st.pitchHistory.set st.historyIndex
            (shapedSample st.manualOffsetY st.deadzone y))) },
       some { roll := applyExpo pw (movingAvg (st.rollHistory.set st.historyIndex
                (shapedSample st.manualOffsetX st.deadzone x))),
              pitch := applyExpo pw (movingAvg (st.pitchHistory.set st.historyIndex
                (shapedSample st.manualOffsetY st.deadzone y))),
              boost := b, rawX := x, rawY := y }) := by
  unfold processJoystickData
  rw [hp]

/-! ## Arithmetic of the per-sample shaping -/

theorem clamp1023_bounds (v : ℤ) : 0 ≤ clamp1023 v ∧ clamp1023 v ≤ 1023 := by
  unfold clamp1023
  omega

theorem clamp1023_of_bounds (v : ℤ) (h1 : 0 ≤ v) (h2 : v ≤ 1023) :
    clamp1023 v = v := by
  unfold clamp1023
  omega

theorem abs_normalize_le_one (c : ℤ) (h1 : 0 ≤ c) (h2 : c ≤ 1023) :
    |normalize c| ≤ 1 := by
  unfold normalize
  have h1' : (0 : ℚ) ≤ (c : ℚ) := by exact_mod_cast h1
  have h2' : (c : ℚ) ≤ 1023 := by exact_mod_cast h2
  rw [abs_div, abs_of_pos (by norm_num : (0:ℚ) < 512),
    div_le_one (by norm_num : (0:ℚ) < 512), abs_le]
  constructor <;> linarith

theorem abs_jsSign_of_ne (q : ℚ) (h : q ≠ 0) : |jsSign q| = 1 := by
  unfold jsSign
  rcases lt_trichotomy 0 q with hq | hq | hq
  · rw [if_pos hq]
    norm_num
  · exact absurd hq.symm h
  · rw [if_neg (by linarith), if_pos hq]
    norm_num

theorem shapedSample_deadzero (off : ℤ) (dz : ℚ) (x : ℤ)
    (h : |normalize (clamp1023 (x + off))| < dz) :
    shapedSample off dz x = 0 := by
  unfold shapedSample applyDeadzone
  rw [if_pos h]
  unfold rescale
  simp

theorem shapedSample_formula (r : ℤ) (h1 : 589 ≤ r) (h2 : r ≤ 1023) :
    shapedSample 0 (15/100) r = (5 * (r : ℚ) - 2944) / 2176 := by
  have hc : clamp1023 (r + 0) = r := by
    unfold clamp1023
    omega
  have hr1 : (589 : ℚ) ≤ (r : ℚ) := by exact_mod_cast h1
  have hpos : (0 : ℚ) < ((r : ℚ) - 512) / 512 := by
    apply div_pos <;> linarith
  have hge : (15/100 : ℚ) ≤ ((r : ℚ) - 512) / 512 := by
    rw [le_div_iff (by norm_num : (0:ℚ) < 512)]
    linarith
  have hnorm : normalize r = ((r : ℚ) - 512) / 512 := rfl
  unfold shapedSample
  rw [hc]
  unfold applyDeadzone
  rw [hnorm, abs_of_pos hpos, if_neg (not_lt.mpr hge)]
  unfold rescale jsSign
  rw [if_pos (ne_of_gt hpos), if_pos hpos, abs_of_pos hpos, one_mul]
  rw [div_eq_div_iff (by norm_num) (by norm_num)]
  ring

theorem abs_shapedSample_le_one (off : ℤ) (dz : ℚ) (raw : ℤ)
    (h0 : 0 ≤ dz) (h1 : dz < 1) : |shapedSample off dz raw| ≤ 1 := by
  obtain ⟨hb1, hb2⟩ := clamp1023_bounds (raw + off)
  have hn := abs_normalize_le_one _ hb1 hb2
  unfold shapedSample applyDeadzone
  by_cases hlt : |normalize (clamp1023 (raw + off))| < dz
  · rw [if_pos hlt]
    unfold rescale
    simp
  · rw [if_neg hlt]
    push_neg at hlt
    unfold rescale
    by_cases hz : normalize (clamp1023 (raw + off)) = 0
    · rw [if_neg (by simp [hz]), hz]
      norm_num
    · rw [if_pos hz, abs_mul, abs_jsSign_of_ne _ hz, one_mul, abs_div,
        abs_of_pos (by linarith : (0:ℚ) < 1 - dz), div_le_one (by linarith),
        abs_of_nonneg (by linarith : (0:ℚ) ≤ |normalize (clamp1023 (raw + off))| - dz)]
      linarith

theorem abs_sum_le_length (l : List ℚ) (h : ∀ v ∈ l, |v| ≤ 1) :
    |l.sum| ≤ (l.length : ℚ) := by
  induction l with
  | nil => simp
  | cons a t ih =>
    have ha := h a (List.mem_cons_self a t)
    have ht := ih (fun v hv => h v (List.mem_cons_of_mem a hv))
    have habs : |(a :: t).sum| ≤ |a| + |t.sum| := by
      rw [List.sum_cons]
      exact abs_add _ _
    have hlen : ((a :: t).length : ℚ) = (t.length : ℚ) + 1 := by
      rw [List.length_cons]
      push_cast
      ring
    rw [hlen]
    linarith

theorem abs_movingAvg_le_one (l : List ℚ) (h : ∀ v ∈ l, |v| ≤ 1) :
    |movingAvg l| ≤ 1 := by
  unfold movingAvg
  cases l with
  | nil => simp
  | cons a t =>
    have hlen : (0 : ℚ) < ((a :: t).length : ℚ) := by
      rw [List.length_cons]
      push_cast
      positivity
    rw [abs_div, abs_of_pos hlen, div_le_one hlen]
    exact abs_sum_le_length _ h

theorem abs_applyExpo_le_one (pw : ℚ → ℚ)
    (hpw : ∀ q : ℚ, 0 ≤ q → q ≤ 1 → 0 ≤ pw q ∧ pw q ≤ 1)
    (v : ℚ) (hv : |v| ≤ 1) : |applyExpo pw v| ≤ 1 := by
  unfold applyExpo
  by_cases hz : v = 0
  · rw [if_neg (by simp [hz]), hz]
    norm_num
  · rw [if_pos hz]
    obtain ⟨hp0, hp1⟩ := hpw |v| (abs_nonneg v) hv
    rw [abs_mul, abs_jsSign_of_ne _ hz, one_mul, abs_of_nonneg hp0]
    exact hp1

theorem applyExpo_zero (pw : ℚ → ℚ) : applyExpo pw 0 = 0 := by
  unfold applyExpo
  simp

theorem applyExpo_of_pos (pw : ℚ → ℚ) (v : ℚ) (h : 0 < v) :
    applyExpo pw v = pw v := by
  unfold applyExpo jsSign
  rw [if_pos (ne_of_gt h), if_pos h, abs_of_pos h, one_mul]

theorem parseLine_eq_none (line : Str)
    (h : (splitOnChar ',' line).length < 2 ∨
         parseIntJS ((splitOnChar ',' line).getD 0 []) = none ∨
         parseIntJS ((splitOnChar ',' line).getD 1 []) = none) :
    parseLine line = none := by
  unfold parseLine
  by_cases hlen : (splitOnChar ',' line).length ≥ 2
  · rw [if_pos hlen]
    rcases h with h | h | h
    · omega
    · rw [h]
    · rw [h]
      cases parseIntJS ((splitOnChar ',' line).getD 0 []) <;> rfl
  · rw [if_neg hlen]

theorem shapedSample_center : shapedSample 0 (15/100) 512 = 0 := by
  apply shapedSample_deadzero
  rw [clamp1023_of_bounds _ (by norm_num) (by norm_num)]
  unfold normalize
  norm_num

/-- A centered line `"512,512,B"` processed from any state with the
default calibration and a zeroed window emits the all-zero event. -/
theorem center_event (pw : ℚ → ℚ) (st : JoyState) (b : Bool) (line : Str)
    (hp : parseLine line = some (512, 512, b))
    (hx : st.manualOffsetX = 0) (hy : st.manualOffsetY = 0)
    (hdz : st.deadzone = 15/100)
    (hrh : st.rollHistory = [0, 0, 0]) (hph : st.pitchHistory = [0, 0, 0])
    (hi : st.historyIndex = 0) :
    (processJoystickData pw st line).2 =
      some { roll := 0, pitch := 0, boost := b, rawX := 512, rawY := 512 } := by
  rw [processJoystickData_some pw st line 512 512 b hp]
  rw [hx, hy, hdz, hrh, hph, hi]
  rw [shapedSample_center]
  have hset : ([0, 0, 0] : List ℚ).set 0 0 = [0, 0, 0] := rfl
  rw [hset]
  have havg : movingAvg [0, 0, 0] = 0 := by
    unfold movingAvg
    norm_num
  rw [havg, applyExpo_zero]

/-! ## Claim theorems -/

/-- **C1 (counterexample).** The claim says each delivered value equals
the window mean of curve-shaped samples. On the line `"1023,512,0"`
from the fresh state, the delivered roll is the curve applied to the
window mean, which differs from the mean of the curve-shaped window
contents: the two orders of stage 5 and stage 6 disagree. -/
theorem claim1_counterexample :
    ((processJoystickData sq initState "1023,512,0".toList).2.map JoyEvent.roll) ≠
      some (movingAvg
        (((processJoystickData sq initState "1023,512,0".toList).1.rollHistory).map
          (applyExpo sq))) := by
  have hp : parseLine "1023,512,0".toList = some (1023, 512, false) := by decide
  rw [processJoystickData_some sq initState _ 1023 512 false hp]
  have hsx : shapedSample initState.manualOffsetX initState.deadzone 1023 =
      2171/2176 := by
    have h := shapedSample_formula 1023 (by norm_num) (by norm_num)
    rw [show initState.manualOffsetX = 0 from rfl,
      show initState.deadzone = 15/100 from rfl, h]
    norm_num
  have hsy : shapedSample initState.manualOffsetY initState.deadzone 512 = 0 :=
    shapedSample_center
  rw [hsx, hsy]
  rw [show (initState.rollHistory.set initState.historyIndex ((2171:ℚ)/2176)) =
      [2171/2176, 0, 0] from rfl]
  show some (applyExpo sq (movingAvg [2171/2176, 0, 0])) ≠
    some (movingAvg (List.map (applyExpo sq) [2171/2176, 0, 0]))
  rw [show movingAvg [(2171:ℚ)/2176, 0, 0] = 2171/6528 from by norm_num [movingAvg]]
  rw [applyExpo_of_pos sq _ (by norm_num)]
  rw [show List.map (applyExpo sq) [(2171:ℚ)/2176, 0, 0] = [sq (2171/2176), 0, 0] from by
    simp only [List.map, applyExpo_zero]
    rw [applyExpo_of_pos sq _ (by norm_num)]]
  rw [show movingAvg [sq ((2171:ℚ)/2176), 0, 0] = sq (2171/2176) / 3 from by
    norm_num [movingAvg, sq]]
  simp only [ne_eq, Option.some.injEq]
  norm_num [sq]

/-- **C1 (amended).** In the airplane controller the exponential
response curve is applied after the moving average, not per sample:
every emitted event's roll and pitch are the curve applied to the
window means, while the value stored in each window slot is the
pre-curve rescaled sample. -/
theorem claim1_amended (pw : ℚ → ℚ) (st : JoyState) (line : Str)
    (st' : JoyState) (e : JoyEvent)
    (h : processJoystickData pw st line = (st', some e)) :
    e.roll = applyExpo pw (movingAvg st'.rollHistory) ∧
    e.pitch = applyExpo pw (movingAvg st'.pitchHistory) ∧
    st'.rollHistory = st.rollHistory.set st.historyIndex
      (shapedSample st.manualOffsetX st.deadzone e.rawX) ∧
    st'.pitchHistory = st.pitchHistory.set st.historyIndex
      (shapedSample st.manualOffsetY st.deadzone e.rawY) := by
  cases hp : parseLine line with
  | none =>
    rw [processJoystickData_none pw st line hp] at h
    simp at h
  | some v =>
    obtain ⟨x, y, b⟩ := v
    rw [processJoystickData_some pw st line x y b hp] at h
    injection h with h1 h2
    injection h2 with h2
    subst h1
    subst h2
    exact ⟨rfl, rfl, rfl, rfl⟩

/-- Witness for `claim1_amended` at the line `"1023,512,0"` from the
fresh controller state. -/
theorem claim1_amended_witness :
    (processJoystickData sq initState "1023,512,0".toList).1.rollHistory =
      initState.rollHistory.set initState.historyIndex
        (shapedSample initState.manualOffsetX initState.deadzone 1023) := by
  have hp : parseLine "1023,512,0".toList = some (1023, 512, false) := by decide
  have h := processJoystickData_some sq initState "1023,512,0".toList 1023 512 false hp
  exact (claim1_amended sq initState "1023,512,0".toList _ _ h).2.2.1

/-- **C2 (counterexample).** At the top of the claimed sweep the raw
value 1023 produces the per-sample shaped value 2171/2176 ≈ 0.9977,
not 1: the output value 1 itself is unreachable, so the rescaled range
is not onto [0, 1]. -/
theorem claim2_counterexample :
    shapedSample 0 (15/100) 1023 = 2171/2176 ∧ (2171/2176 : ℚ) ≠ 1 := by
  constructor
  · rw [shapedSample_formula 1023 (by norm_num) (by norm_num)]
    norm_num
  · norm_num

/-- **C2 (amended).** With center 512 and offsets 0, deadzone 0.15: for
integer raws 589 ≤ r ≤ 1023 the per-sample shaped value follows the
affine formula (5r − 2944)/2176, so it climbs in uniform steps of
5/2176 from 1/2176 up to the maximum 2171/2176 < 1 and never overshoots
1; raw 588 still lies in the deadzone and maps to 0; and the line
`"1023,512,1"` pushes the per-sample value 2171/2176 (within 0.003 of
1.0) into the roll window with the button delivered as true. -/
theorem claim2_amended :
    (∀ r : ℤ, 589 ≤ r → r ≤ 1023 →
      shapedSample 0 (15/100) r = (5 * (r : ℚ) - 2944) / 2176 ∧
      0 < shapedSample 0 (15/100) r ∧
      shapedSample 0 (15/100) r ≤ 2171/2176) ∧
    (∀ r : ℤ, 589 ≤ r → r ≤ 1022 →
      shapedSample 0 (15/100) (r + 1) - shapedSample 0 (15/100) r = 5/2176) ∧
    shapedSample 0 (15/100) 588 = 0 ∧
    (∀ pw : ℚ → ℚ,
      (processJoystickData pw initState "1023,512,1".toList).1.rollHistory =
        [2171/2176, 0, 0] ∧
      (processJoystickData pw initState "1023,512,1".toList).2.map JoyEvent.boost =
        some true ∧
      |(2171/2176 : ℚ) - 1| < 3/1000) := by
  refine ⟨?_, ?_, ?_, ?_⟩
  · intro r h1 h2
    have hf := shapedSample_formula r h1 h2
    have hr1 : (589 : ℚ) ≤ (r : ℚ) := by exact_mod_cast h1
    have hr2 : (r : ℚ) ≤ 1023 := by exact_mod_cast h2
    refine ⟨hf, ?_, ?_⟩
    · rw [hf]
      apply div_pos <;> linarith
    · rw [hf, div_le_div_iff (by norm_num) (by norm_num)]
      linarith
  · intro r h1 h2
    have hf1 := shapedSample_formula r h1 (by omega)
    have hf2 := shapedSample_formula (r + 1) (by omega) (by omega)
    rw [hf1, hf2, div_sub_div_same]
    push_cast
    ring_nf
  · apply shapedSample_deadzero
    rw [clamp1023_of_bounds _ (by norm_num) (by norm_num)]
    unfold normalize
    rw [abs_of_pos (by norm_num)]
    norm_num
  · intro pw
    have hp : parseLine "1023,512,1".toList = some (1023, 512, true) := by decide
    rw [processJoystickData_some pw initState _ 1023 512 true hp]
    have hsx : shapedSample initState.manualOffsetX initState.deadzone 1023 =
        2171/2176 := by
      have h := shapedSample_formula 1023 (by norm_num) (by norm_num)
      rw [show initState.manualOffsetX = 0 from rfl,
        show initState.deadzone = 15/100 from rfl, h]
      norm_num
    rw [hsx]
    refine ⟨rfl, rfl, ?_⟩
    rw [abs_sub_comm, show (1 : ℚ) - 2171/2176 = 5/2176 from by norm_num,
      abs_of_pos (by norm_num)]
    norm_num

/-- Witness for `claim2_amended` at raw value 600. -/
theorem claim2_amended_witness :
    ((589 : ℤ) ≤ 600 ∧ (600 : ℤ) ≤ 1023) ∧
    (shapedSample 0 (15/100) 600 = (5 * ((600 : ℤ) : ℚ) - 2944) / 2176 ∧
      0 < shapedSample 0 (15/100) 600 ∧
      shapedSample 0 (15/100) 600 ≤ 2171/2176) :=
  ⟨⟨by norm_num, by norm_num⟩,
    claim2_amended.1 600 (by norm_num) (by norm_num)⟩

/-- **C3.** A sample whose offset-corrected normalized value lies
strictly inside the deadzone shapes to exactly 0 for that axis —
independent of the exponential curve, which only sees the window mean;
in particular a sample at the calibrated center (with any positive
deadzone) shapes to 0, and the line `"512,512,0"` processed with the
default calibration emits the event `{x 0, y 0, button false}`. -/
theorem claim3_deadzone_exact_zero :
    (∀ (off : ℤ) (dz : ℚ) (x : ℤ),
        |normalize (clamp1023 (x + off))| < dz → shapedSample off dz x = 0) ∧
    (∀ (off : ℤ) (dz : ℚ), 0 < dz → shapedSample off dz (512 - off) = 0) ∧
    (∀ pw : ℚ → ℚ,
      (processJoystickData pw initState "512,512,0".toList).2 =
        some { roll := 0, pitch := 0, boost := false, rawX := 512, rawY := 512 }) := by
  refine ⟨shapedSample_deadzero, ?_, ?_⟩
  · intro off dz hdz
    apply shapedSample_deadzero
    rw [show 512 - off + off = (512 : ℤ) from by ring,
      clamp1023_of_bounds _ (by norm_num) (by norm_num)]
    unfold normalize
    norm_num
    exact hdz
  · intro pw
    exact center_event pw initState false _ (by decide) rfl rfl rfl rfl rfl rfl

/-- Witness for `claim3_deadzone_exact_zero` at raw 520, offset 0,
deadzone 0.15. -/
theorem claim3_witness :
    (|normalize (clamp1023 (520 + 0))| < 15/100 ∧
      shapedSample 0 (15/100) 520 = 0) ∧
    (0 < (15/100 : ℚ) ∧ shapedSample 0 (15/100) (512 - 0) = 0) := by
  have hlt : |normalize (clamp1023 (520 + 0))| < 15/100 := by
    rw [clamp1023_of_bounds _ (by norm_num) (by norm_num)]
    unfold normalize
    push_cast
    rw [show (520 : ℚ) - 512 = 8 from by norm_num,
      show (8 : ℚ)/512 = 1/64 from by norm_num, abs_of_pos (by norm_num)]
    norm_num
  exact ⟨⟨hlt, claim3_deadzone_exact_zero.1 0 (15/100) 520 hlt⟩,
    ⟨by norm_num, claim3_deadzone_exact_zero.2.1 0 (15/100) (by norm_num)⟩⟩

/-- **C4 (counterexample).** The malformed line `"512,512"` (two
fields where the wire format `"X,Y,BUTTON"` has three) is not dropped:
it emits a control event to the consumer. -/
theorem claim4_counterexample :
    (processJoystickData sq initState "512,512".toList).2 =
      some { roll := 0, pitch := 0, boost := false, rawX := 512, rawY := 512 } :=
  center_event sq initState false _ (by decide) rfl rfl rfl rfl rfl rfl

/-- **C4 (amended).** A CSV line is dropped without emitting an event
(and with the state untouched) exactly in the cases the code rejects:
fewer than two comma-separated fields, or a first or second field that
`parseInt` turns into `NaN`. Lines with two or more fields whose first
two fields parse — including wrong-field-count lines like `"512,512"`
and numeric-prefix fields — are processed. The scenario line
`"abc,def"` emits nothing, leaves the state unchanged, and subsequent
lines process exactly as if it had never arrived. -/
theorem claim4_amended :
    (∀ (pw : ℚ → ℚ) (st : JoyState) (line : Str),
      ((splitOnChar ',' line).length < 2 ∨
        parseIntJS ((splitOnChar ',' line).getD 0 []) = none ∨
        parseIntJS ((splitOnChar ',' line).getD 1 []) = none) →
      processJoystickData pw st line = (st, none)) ∧
    (∀ (pw : ℚ → ℚ) (st : JoyState),
      processJoystickData pw st "abc,def".toList = (st, none)) ∧
    (∀ (pw : ℚ → ℚ) (st : JoyState) (ls : List Str),
      processLines pw st ("abc,def".toList :: ls) = processLines pw st ls) := by
  have hdrop : ∀ (pw : ℚ → ℚ) (st : JoyState) (line : Str),
      ((splitOnChar ',' line).length < 2 ∨
        parseIntJS ((splitOnChar ',' line).getD 0 []) = none ∨
        parseIntJS ((splitOnChar ',' line).getD 1 []) = none) →
      processJoystickData pw st line = (st, none) := by
    intro pw st line h
    exact processJoystickData_none pw st line (parseLine_eq_none line h)
  refine ⟨hdrop, ?_, ?_⟩
  · intro pw st
    exact hdrop pw st _ (Or.inr (Or.inl (by decide)))
  · intro pw st ls
    simp only [processLines]
    rw [hdrop pw st _ (Or.inr (Or.inl (by decide)))]
    simp

/-- Witness for `claim4_amended` on the one-field line `"512"`. -/
theorem claim4_amended_witness :
    ((splitOnChar ',' "512".toList).length < 2) ∧
    processJoystickData sq initState "512".toList = (initState, none) :=
  ⟨by decide, claim4_amended.1 sq initState _ (Or.inl (by decide))⟩

/-- **C5.** The Line Framer appends the new text to its buffer, splits
on newline, emits every fragment but the last in order, and keeps the
last fragment as the new buffer; feeding a stream in two chunks emits
the same lines in the same order as feeding it at once; and the
two-call scenario `"51"` then `"2,512,0\n"` yields exactly the one
complete line `"512,512,0"` with an empty buffer left over. -/
theorem claim5_line_framer :
    (∀ b d : Str, framerSplit b d =
      ((splitOnChar '\n' (b ++ d)).dropLast,
       (splitOnChar '\n' (b ++ d)).getLastD [])) ∧
    (∀ b d1 d2 : Str,
      (framerSplit b d1).1 ++ (framerSplit (framerSplit b d1).2 d2).1 =
        (framerSplit b (d1 ++ d2)).1 ∧
      (framerSplit (framerSplit b d1).2 d2).2 =
        (framerSplit b (d1 ++ d2)).2) ∧
    framerSplit [] "51".toList = ([], "51".toList) ∧
    framerSplit "51".toList "2,512,0\n".toList = (["512,512,0".toList], []) :=
  ⟨framerSplit_eq, framerSplit_comp, by decide, by decide⟩

/-- **C6.** Manual recalibration (`calibrateJoystick`) while connected
stores `512 - current` as the offsets and zeroes both smoothing
windows, so the window mean after the next K = 3 processed samples is
the plain arithmetic mean of those three shaped samples, with no
contribution from pre-recalibration window contents. -/
theorem claim6_recalibration_resets_window (pw : ℚ → ℚ) (st : JoyState)
    (l1 l2 l3 : Str) (x1 y1 x2 y2 x3 y3 : ℤ) (b1 b2 b3 : Bool)
    (hc : st.connected = true) (hi : st.historyIndex < 3)
    (h1 : parseLine l1 = some (x1, y1, b1))
    (h2 : parseLine l2 = some (x2, y2, b2))
    (h3 : parseLine l3 = some (x3, y3, b3)) :
    movingAvg (processLines pw (calibrateJoystick st) [l1, l2, l3]).1.rollHistory =
      (shapedSample (512 - st.joystickX) st.deadzone x1 +
       shapedSample (512 - st.joystickX) st.deadzone x2 +
       shapedSample (512 - st.joystickX) st.deadzone x3) / 3 ∧
    movingAvg (processLines pw (calibrateJoystick st) [l1, l2, l3]).1.pitchHistory =
      (shapedSample (512 - st.joystickY) st.deadzone y1 +
       shapedSample (512 - st.joystickY) st.deadzone y2 +
       shapedSample (512 - st.joystickY) st.deadzone y3) / 3 := by
  have hcal : calibrateJoystick st =
      { st with
        manualOffsetX := 512 - st.joystickX,
        manualOffsetY := 512 - st.joystickY,
        rollHistory := [0, 0, 0],
        pitchHistory := [0, 0, 0] } := by
    unfold calibrateJoystick
    rw [hc]
    simp
  rw [hcal]
  simp only [processLines]
  rw [processJoystickData_some pw _ l1 x1 y1 b1 h1,
    processJoystickData_some pw _ l2 x2 y2 b2 h2,
    processJoystickData_some pw _ l3 x3 y3 b3 h3]
  simp only [List.length_set]
  interval_cases hiv : st.historyIndex <;>
    simp [movingAvg, List.set] <;> ring_nf <;> constructor <;> ring

/-- Witness for `claim6_recalibration_resets_window`: a connected
controller, recalibrated, then fed three concrete lines. -/
theorem claim6_witness :
    movingAvg (processLines sq
        (calibrateJoystick { initState with connected := true })
        ["600,400,1".toList, "700,300,0".toList, "512,512,1".toList]).1.rollHistory =
      (shapedSample 0 (15/100) 600 + shapedSample 0 (15/100) 700 +
        shapedSample 0 (15/100) 512) / 3 :=
  (claim6_recalibration_resets_window sq { initState with connected := true }
    "600,400,1".toList "700,300,0".toList "512,512,1".toList
    600 400 700 300 512 512 true false true
    rfl (by decide) (by decide) (by decide) (by decide)).1

/-! ## The [-1, 1] output invariant -/

/-- States whose smoothing windows hold only values in [-1, 1] and
whose deadzone sits in [0, 1): every state the pipeline can reach from
the constructor's state, under any manual offsets. -/
def GoodState (st : JoyState) : Prop :=
  (∀ v ∈ st.rollHistory, |v| ≤ 1) ∧ (∀ v ∈ st.pitchHistory, |v| ≤ 1) ∧
  0 ≤ st.deadzone ∧ st.deadzone < 1

theorem goodState_init : GoodState initState := by
  refine ⟨?_, ?_, by norm_num [initState], by norm_num [initState]⟩ <;>
    · intro v hv
      simp only [initState, List.mem_cons, List.not_mem_nil, or_false] at hv
      rcases hv with h | h | h <;> rw [h] <;> norm_num

theorem goodState_step (pw : ℚ → ℚ)
    (hpw : ∀ q : ℚ, 0 ≤ q → q ≤ 1 → 0 ≤ pw q ∧ pw q ≤ 1)
    (st : JoyState) (hst : GoodState st) (line : Str) :
    GoodState (processJoystickData pw st line).1 ∧
    ∀ e ∈ (processJoystickData pw st line).2, |e.roll| ≤ 1 ∧ |e.pitch| ≤ 1 := by
  cases hp : parseLine line with
  | none =>
    rw [processJoystickData_none pw st line hp]
    exact ⟨hst, by simp⟩
  | some v =>
    obtain ⟨x, y, b⟩ := v
    rw [processJoystickData_some pw st line x y b hp]
    obtain ⟨hr, hph, hdz0, hdz1⟩ := hst
    have hsx := abs_shapedSample_le_one st.manualOffsetX st.deadzone x hdz0 hdz1
    have hsy := abs_shapedSample_le_one st.manualOffsetY st.deadzone y hdz0 hdz1
    have hroll : ∀ v ∈ st.rollHistory.set st.historyIndex
        (shapedSample st.manualOffsetX st.deadzone x), |v| ≤ 1 := by
      intro v hv
      rcases List.mem_or_eq_of_mem_set hv with h | h
      · exact hr v h
      · rw [h]
        exact hsx
    have hpitch : ∀ v ∈ st.pitchHistory.set st.historyIndex
        (shapedSample st.manualOffsetY st.deadzone y), |v| ≤ 1 := by
      intro v hv
      rcases List.mem_or_eq_of_mem_set hv with h | h
      · exact hph v h
      · rw [h]
        exact hsy
    refine ⟨⟨hroll, hpitch, hdz0, hdz1⟩, ?_⟩
    intro e he
    simp only [Option.mem_def, Option.some.injEq] at he
    subst he
    exact ⟨abs_applyExpo_le_one pw hpw _ (abs_movingAvg_le_one _ hroll),
      abs_applyExpo_le_one pw hpw _ (abs_movingAvg_le_one _ hpitch)⟩

theorem processLines_events_bounded (pw : ℚ → ℚ)
    (hpw : ∀ q : ℚ, 0 ≤ q → q ≤ 1 → 0 ≤ pw q ∧ pw q ≤ 1) :
    ∀ (ls : List Str) (st : JoyState), GoodState st →
      ∀ e ∈ (processLines pw st ls).2, |e.roll| ≤ 1 ∧ |e.pitch| ≤ 1 := by
  intro ls
  induction ls with
  | nil =>
    intro st hst e he
    simp [processLines] at he
  | cons l rest ih =>
    intro st hst e he
    simp only [processLines, List.mem_append, Option.mem_toList] at he
    rcases he with he | he
    · exact (goodState_step pw hpw st hst l).2 e he
    · exact ih (processJoystickData pw st l).1 (goodState_step pw hpw st hst l).1 e he

/-- **C9.** For any curve power function mapping [0, 1] into [0, 1]
(as `x ↦ x^1.6` does), any reachable state — arbitrary manual offsets,
windows holding only values in [-1, 1], deadzone in [0, 1) — and any
sequence of processed CSV lines, every delivered event's roll and
pitch lie in [-1, 1]: offset-corrected raws are clamped to [0, 1023]
before normalization, so no emitted axis value ever escapes [-1, 1]. -/
theorem claim9_axes_in_range (pw : ℚ → ℚ)
    (hpw : ∀ q : ℚ, 0 ≤ q → q ≤ 1 → 0 ≤ pw q ∧ pw q ≤ 1)
    (st : JoyState) (hst : GoodState st) (ls : List Str) (e : JoyEvent)
    (he : e ∈ (processLines pw st ls).2) :
    -1 ≤ e.roll ∧ e.roll ≤ 1 ∧ -1 ≤ e.pitch ∧ e.pitch ≤ 1 := by
  obtain ⟨h1, h2⟩ := processLines_events_bounded pw hpw ls st hst e he
  rw [abs_le] at h1 h2
  exact ⟨h1.1, h1.2, h2.1, h2.2⟩

/-- Witness for `claim9_axes_in_range` with the gamma-2 curve, the
fresh state and the line `"512,512,1"`. -/
theorem claim9_witness :
    GoodState initState ∧
    (-1 ≤ (JoyEvent.mk 0 0 true 512 512).roll ∧
      (JoyEvent.mk 0 0 true 512 512).roll ≤ 1 ∧
      -1 ≤ (JoyEvent.mk 0 0 true 512 512).pitch ∧
      (JoyEvent.mk 0 0 true 512 512).pitch ≤ 1) := by
  have hpw : ∀ q : ℚ, 0 ≤ q → q ≤ 1 → 0 ≤ sq q ∧ sq q ≤ 1 := by
    intro q h0 h1
    exact ⟨mul_nonneg h0 h0, mul_le_one₀ h1 h0 h1⟩
  have hev := center_event sq initState true ("512,512,1".toList)
    (by decide) rfl rfl rfl rfl rfl rfl
  have he : (JoyEvent.mk 0 0 true 512 512) ∈
      (processLines sq initState ["512,512,1".toList]).2 := by
    simp only [processLines]
    rw [hev]
    simp
  exact ⟨goodState_init,
    claim9_axes_in_range sq hpw initState goodState_init _ _ he⟩

/-- **C7 (counterexample).** Ten calibration samples all reading 100
give an x center of 100 — far outside [200, 800] — yet
`calibrateJoystick` still sets `calibrated = true`; no validity check
runs and no centered defaults are substituted. -/
theorem claim7_counterexample :
    arduinoCalibrateJoystick (List.replicate 10 100) (List.replicate 10 512) =
      { xCenter := 100, yCenter := 512, calibrated := true } ∧
    ¬((200 : ℤ) ≤ 100) := by
  constructor
  · decide
  · decide

/-- **C7 (amended).** Sampled-average calibration computes each center
as the integer mean of the fixed sample count and accepts the result
unconditionally (`calibrated = true`); the [200, 800] validity band is
applied only to centers loaded back from EEPROM, whose failure makes
the load return false (triggering a fresh calibration, not a
substitution of centered defaults). -/
theorem claim7_amended :
    (∀ xs ys : List ℤ,
      (arduinoCalibrateJoystick xs ys).calibrated = true ∧
      (arduinoCalibrateJoystick xs ys).xCenter = xs.sum / 10 ∧
      (arduinoCalibrateJoystick xs ys).yCenter = ys.sum / 10) ∧
    (∀ cx cy : ℤ, eepromCenterValid cx cy = true ↔
      (200 ≤ cx ∧ cx ≤ 800 ∧ 200 ≤ cy ∧ cy ≤ 800)) := by
  constructor
  · intro xs ys
    exact ⟨rfl, rfl, rfl⟩
  · intro cx cy
    unfold eepromCenterValid
    simp only [Bool.not_eq_true', Bool.or_eq_false_iff, decide_eq_false_iff_not,
      not_lt, gt_iff_lt]
    omega

/-- **C8 (counterexample).** A device named "Foo" whose one service
exposes a characteristic with neither notify nor read does not get the
simulated fallback: `connect` ends by throwing (`failed`), leaving the
consumer with no input source. -/
theorem claim8_counterexample :
    btConnectOutcome "Foo".toList [[{ notify := false, canRead := false }]] =
      BtOutcome.failed ∧ BtOutcome.failed ≠ BtOutcome.simulated := by
  constructor
  · decide
  · decide

/-- **C8 (amended).** When no usable (notify or read) characteristic
exists anywhere, the connect outcome is the simulated/keyboard
substitute mode exactly when the device name contains "HC-" or "JY";
for every other device name the connection attempt throws. -/
theorem claim8_amended (name : Str) (services : List (List CharProps))
    (h : ∀ svc ∈ services, ∀ c ∈ svc, c.notify = false ∧ c.canRead = false) :
    btConnectOutcome name services =
      (if isHcName name then BtOutcome.simulated else BtOutcome.failed) := by
  have hloop : ∀ (svcs : List (List CharProps)),
      (∀ svc ∈ svcs, ∀ c ∈ svc, c.notify = false ∧ c.canRead = false) →
      btServiceLoop name svcs = btFallback name := by
    intro svcs
    induction svcs with
    | nil =>
      intro _
      rfl
    | cons svc rest ih =>
      intro hh
      unfold btServiceLoop
      have hnot : svc.any (fun c => c.notify) = false := by
        rw [List.any_eq_false]
        intro c hcmem
        rw [(hh svc (List.mem_cons_self _ _) c hcmem).1]
        simp
      have hread : svc.any (fun c => c.canRead) = false := by
        rw [List.any_eq_false]
        intro c hcmem
        rw [(hh svc (List.mem_cons_self _ _) c hcmem).2]
        simp
      rw [hnot, hread]
      simp only [Bool.false_eq_true, if_false]
      exact ih (fun s hs c hc => hh s (List.mem_cons_of_mem _ hs) c hc)
  unfold btConnectOutcome
  by_cases hemp : services.isEmpty
  · rw [if_pos hemp]
    rfl
  · rw [if_neg hemp]
    by_cases hfast : (isHcName name && (services.getD 0 []).isEmpty) = true
    · rw [if_pos hfast]
      rw [Bool.and_eq_true] at hfast
      rw [hfast.1]
      rfl
    · rw [if_neg hfast, hloop services h]
      rfl

/-- Witness for `claim8_amended`: an HC-06 with a single useless
characteristic ends in simulated mode. -/
theorem claim8_amended_witness :
    (∀ svc ∈ [[({ notify := false, canRead := false } : CharProps)]],
      ∀ c ∈ svc, c.notify = false ∧ c.canRead = false) ∧
    btConnectOutcome "HC-06".toList [[{ notify := false, canRead := false }]] =
      (if isHcName "HC-06".toList then BtOutcome.simulated else BtOutcome.failed) :=
  ⟨by decide, claim8_amended "HC-06".toList _ (by decide)⟩

/-- **C10.** The Pacman serial controller delivers, for every parsed
data line, exactly the plain normalizations: `x = (X - 512)/512` and
`y = -(Y - 512)/512` — the negation of the airplane controller's
pitch-normalization formula — with the button passed through, and no
deadzone, edge rescaling, exponential curve or moving average applied
to either axis. -/
theorem claim10_pacman_inverted_y (line : Str) (x y : ℤ) (b : Bool)
    (hp : parseLine line = some (x, y, b)) :
    (pacmanProcessJoystickData line).map PacEvent.x = some (normalize x) ∧
    (pacmanProcessJoystickData line).map PacEvent.y = some (-(normalize y)) ∧
    (pacmanProcessJoystickData line).map PacEvent.button = some b := by
  unfold pacmanProcessJoystickData
  rw [hp]
  refine ⟨rfl, ?_, rfl⟩
  show some (-(((y : ℚ) - 512)) / 512) = some (-(normalize y))
  rw [neg_div]
  rfl

/-- Witness for `claim10_pacman_inverted_y` on the line `"512,300,1"`. -/
theorem claim10_witness :
    parseLine "512,300,1".toList = some (512, 300, true) ∧
    (pacmanProcessJoystickData "512,300,1".toList).map PacEvent.y =
      some (-(normalize 300)) :=
  ⟨by decide, (claim10_pacman_inverted_y "512,300,1".toList 512 300 true (by decide)).2.1⟩

end ArduinoJoystick
